import Mathlib

/-!
Verification of the demand-forecasting walkthrough notebook
(`sdk/python/foundation-models/nixtla/05_demand_forecasting.ipynb`).

The notebook is sequential glue code: load a panel dataframe, apply the
offset-log transform `np.log(y + 1)` to a copy, hold out the last 28 rows
of each series with `groupby("unique_id").tail(28)`, call forecast
providers, inverse-transform every produced value column with
`np.exp(col) - 1`, left-merge predictions into the holdout table on
`("unique_id", "ds")`, and aggregate mean-absolute-error with
`evaluation.groupby("metric")[models].mean()`.

This file embeds those cells as pure Lean definitions (dataframe columns
of real numbers become lists over `ℝ`/`ℚ`; missing values (`NaN` after a
left merge) become `Option`; the in-place dataframe mutations relevant to
the read-only-panel claim become explicit heap updates) and proves or
refutes the specification's claims about them.
-/

namespace DemandForecast

/-! ## Transform stage

Notebook cell: `df_transformed["y"] = np.log(df_transformed["y"] + 1)`
and, for every forecast value column, `fcst_df[col] = np.exp(fcst_df[col]) - 1`.
Floating-point arithmetic is modelled exactly over `ℝ`, so "equal within
floating-point tolerance" becomes equality. -/

/-- Forward transform of the notebook: `np.log(y + 1)`. -/
noncomputable def forwardT (v : ℝ) : ℝ := Real.log (v + 1)

/-- Inverse transform of the notebook: `np.exp(t) - 1`. -/
noncomputable def inverseT (t : ℝ) : ℝ := Real.exp t - 1

/-- C1: Transform round-trip law: for every value v ≥ 0, applying the forward
transform `log(v+1)` and then the inverse transform `exp(t)-1` returns v
(exactly, in the real-number model of floating point). -/
theorem transform_roundtrip (v : ℝ) (h : 0 ≤ v) : inverseT (forwardT v) = v := by
  unfold inverseT forwardT
  rw [Real.exp_log (by linarith)]
  ring

/-- Witness for C1: the round trip at the concrete input v = 3. -/
theorem transform_roundtrip_witness : (0 : ℝ) ≤ 3 ∧ inverseT (forwardT 3) = 3 :=
  ⟨by norm_num, transform_roundtrip 3 (by norm_num)⟩

/-- C10: every inverse-transformed prediction `exp(t) - 1` is strictly greater
than -1; it is nonnegative exactly when the transformed-scale prediction t is
nonnegative; and some transformed-scale prediction yields a negative raw-scale
value, so the pipeline does not guarantee nonnegative raw predictions. -/
theorem inverse_transform_bounds :
    (∀ t : ℝ, -1 < inverseT t) ∧
    (∀ t : ℝ, 0 ≤ inverseT t ↔ 0 ≤ t) ∧
    (∃ t : ℝ, inverseT t < 0) := by
  refine ⟨fun t => ?_, fun t => ?_, ⟨-1, ?_⟩⟩
  · have := Real.exp_pos t
    unfold inverseT; linarith
  · unfold inverseT
    constructor
    · intro h
      have h1 : 1 ≤ Real.exp t := by linarith
      exact Real.one_le_exp_iff.mp h1
    · intro h
      have h1 : 1 ≤ Real.exp t := Real.one_le_exp_iff.mpr h
      linarith
  · have : Real.exp (-1) < 1 := Real.exp_lt_one_iff.mpr (by norm_num)
    unfold inverseT; linarith

/-! ## Splitter

Notebook cell 13:
`test_df = df_transformed.groupby("unique_id").tail(28)` and
`input_df = df_transformed.drop(test_df.index)`.

Per series (a dataframe group, rows in chronological order),
`tail(28)` keeps the last `min(len, 28)` rows, and `drop(test_df.index)`
keeps the remaining prefix. A panel is modelled as a list of
(series_id, series) groups, exactly what `groupby("unique_id")` yields. -/

/-- A row of the panel: series identifier, timestamp (day index), target. -/
structure Row where
  uid : String
  ds : Nat
  y : ℚ
deriving DecidableEq, Repr

/-- The split of one series group: `tail(H)` keeps the last `min(len, H)`
rows, `drop(index)` keeps the remaining prefix, both in original order.
Returns (input, holdout). Polymorphic in the row type (the split never
inspects the row contents). -/
def splitSeries {α : Type} (H : Nat) (s : List α) : List α × List α :=
  (s.take (s.length - H), s.drop (s.length - H))

/-- The split of a whole panel, one group per series id, as produced by
`groupby("unique_id")`. -/
def splitPanel (H : Nat) (panel : List (String × List Row)) :
    List (String × (List Row × List Row)) :=
  panel.map fun g => (g.1, splitSeries H g.2)

/-- C2: for every series of the panel with at least H = 28 records and
strictly increasing timestamps, the split yields a holdout of exactly the
last 28 records, the input is the remainder, input and holdout are disjoint,
their lengths sum to the original length, and every input timestamp precedes
every holdout timestamp. -/
theorem splitPanel_partition (panel : List (String × List Row)) (uid : String)
    (s : List Row) (hmem : (uid, s) ∈ panel) (hlen : 28 ≤ s.length)
    (hchron : s.Pairwise fun a b => a.ds < b.ds) :
    (uid, splitSeries 28 s) ∈ splitPanel 28 panel ∧
    (splitSeries 28 s).2.length = 28 ∧
    (splitSeries 28 s).1 ++ (splitSeries 28 s).2 = s ∧
    (splitSeries 28 s).1.length + (splitSeries 28 s).2.length = s.length ∧
    (splitSeries 28 s).1.Disjoint (splitSeries 28 s).2 ∧
    (∀ a ∈ (splitSeries 28 s).1, ∀ b ∈ (splitSeries 28 s).2, a.ds < b.ds) := by
  have hnd : s.Nodup := by
    refine hchron.imp ?_
    intro a b hab
    intro he; rw [he] at hab; exact lt_irrefl _ hab
  have happ : (splitSeries 28 s).1 ++ (splitSeries 28 s).2 = s :=
    List.take_append_drop _ s
  refine ⟨?_, ?_, happ, ?_, ?_, ?_⟩
  · unfold splitPanel
    exact List.mem_map.mpr ⟨(uid, s), hmem, rfl⟩
  · unfold splitSeries
    simp only [List.length_drop]
    omega
  · unfold splitSeries
    simp only [List.length_take, List.length_drop]
    omega
  · exact List.disjoint_take_drop hnd le_rfl
  · have := (List.pairwise_append.mp (happ ▸ hchron)).2.2
    exact this

/-- Witness for C2 at a concrete panel: one series of 29 increasing days. -/
theorem splitPanel_partition_witness :
    letI s : List Row := (List.range 29).map fun i => ⟨"FOODS_1", i, 1⟩
    ("FOODS_1", s) ∈ [("FOODS_1", s)] ∧ 28 ≤ s.length ∧
      (s.Pairwise fun a b => a.ds < b.ds) ∧
      ((("FOODS_1", splitSeries 28 s) ∈ splitPanel 28 [("FOODS_1", s)]) ∧
        (splitSeries 28 s).2.length = 28 ∧
        (splitSeries 28 s).1 ++ (splitSeries 28 s).2 = s ∧
        (splitSeries 28 s).1.length + (splitSeries 28 s).2.length = s.length ∧
        (splitSeries 28 s).1.Disjoint (splitSeries 28 s).2 ∧
        (∀ a ∈ (splitSeries 28 s).1, ∀ b ∈ (splitSeries 28 s).2, a.ds < b.ds)) := by
  refine ⟨by decide, by decide, ?hp, ?_⟩
  case hp =>
    refine List.pairwise_map.mpr ?_
    refine List.pairwise_lt_range 29 |>.imp ?_
    intro a b h; simpa using h
  case _ =>
    exact splitPanel_partition [("FOODS_1", _)] "FOODS_1" _ (by simp) (by simp)
      (by refine List.pairwise_map.mpr ?_
          refine List.pairwise_lt_range 29 |>.imp ?_
          intro a b h; simpa using h)

/-- C4 counterexample: on a series with exactly H = 28 records the split does
NOT fail with an insufficient-history error — `groupby.tail(28)` plus
`drop(index)` is total and silently returns an empty input together with the
whole series as holdout. -/
theorem split_insufficient_history_counterexample :
    splitSeries 28 ((List.range 28).map fun i => (⟨"FOODS_1", i, 1⟩ : Row)) =
      ([], (List.range 28).map fun i => (⟨"FOODS_1", i, 1⟩ : Row)) := by
  simp [splitSeries]

/-- C4 amended: the split never fails. A series with exactly H+1 = 29 records
yields an input of length 1 and a holdout of length 28; a series with at most
H = 28 records is silently truncated to an empty input with the entire series
as holdout, with no error surfaced. -/
theorem split_short_series_behavior (s t : List Row)
    (hs : s.length = 29) (ht : t.length ≤ 28) :
    (splitSeries 28 s).1.length = 1 ∧ (splitSeries 28 s).2.length = 28 ∧
    splitSeries 28 t = ([], t) := by
  refine ⟨?_, ?_, ?_⟩
  · unfold splitSeries
    simp only [List.length_take]
    omega
  · unfold splitSeries
    simp only [List.length_drop]
    omega
  · unfold splitSeries
    have h0 : t.length - 28 = 0 := by omega
    rw [h0]
    simp

/-- Witness for the amended C4 at concrete series of lengths 29 and 28. -/
theorem split_short_series_behavior_witness :
    letI s : List Row := (List.range 29).map fun i => ⟨"FOODS_1", i, 1⟩
    letI t : List Row := (List.range 28).map fun i => ⟨"FOODS_1", i, 1⟩
    s.length = 29 ∧ t.length ≤ 28 ∧
      ((splitSeries 28 s).1.length = 1 ∧ (splitSeries 28 s).2.length = 28 ∧
        splitSeries 28 t = ([], t)) :=
  ⟨by simp, by simp, split_short_series_behavior _ _ (by simp) (by simp)⟩

/-! ## Evaluator join

Notebook cells 22 and 36:
`test_df = pd.merge(test_df, fcst_df, "left", ["unique_id", "ds"])`.

A forecast row carries the value columns the provider produced for one
(series, timestamp) key; here they are represented by one rational payload,
since the join logic is independent of how many value columns there are.
Pandas left-merge semantics: the output has one row per left row and per
matching right row; a left row with no key match is kept once with the right
columns set to NaN (modelled as `none`); right rows with no key match do not
appear in the output. -/

/-- A forecast row: key plus the provider-produced value. -/
structure FRow where
  uid : String
  ds : Nat
  yhat : ℚ
deriving DecidableEq, Repr

/-- A row of the merged evaluation table: holdout key and actual, plus the
forecast value (`none` models the NaN that pandas puts on unmatched rows). -/
structure MRow where
  uid : String
  ds : Nat
  y : ℚ
  yhat : Option ℚ
deriving DecidableEq, Repr

/-- The rows a single left (holdout) row contributes to the merge output:
one row per key-matching forecast row, or a single NaN-valued row when no
forecast row matches. -/
def mergeRow (fc : List FRow) (l : Row) : List MRow :=
  if (fc.filter fun r => decide (r.uid = l.uid ∧ r.ds = l.ds)).isEmpty then
    [⟨l.uid, l.ds, l.y, none⟩]
  else
    (fc.filter fun r => decide (r.uid = l.uid ∧ r.ds = l.ds)).map
      fun r => ⟨l.uid, l.ds, l.y, some r.yhat⟩

/-- The merge `pd.merge(test_df, fcst_df, "left", ["unique_id", "ds"])`. -/
def leftMerge (hd : List Row) (fc : List FRow) : List MRow :=
  hd.flatMap (mergeRow fc)

theorem mergeRow_fields (fc : List FRow) (l : Row) :
    ∀ m ∈ mergeRow fc l, m.uid = l.uid ∧ m.ds = l.ds ∧ m.y = l.y := by
  intro m hm
  unfold mergeRow at hm
  by_cases he : (fc.filter fun r => decide (r.uid = l.uid ∧ r.ds = l.ds)).isEmpty
  · rw [if_pos he] at hm
    rw [List.mem_singleton] at hm
    subst hm; exact ⟨rfl, rfl, rfl⟩
  · rw [if_neg he] at hm
    rw [List.mem_map] at hm
    obtain ⟨r, _, hr⟩ := hm
    subst hr; exact ⟨rfl, rfl, rfl⟩

theorem filter_key_length_le_one (fc : List FRow) (u : String) (d : Nat)
    (h : (fc.map fun r => (r.uid, r.ds)).Nodup) :
    (fc.filter fun r => decide (r.uid = u ∧ r.ds = d)).length ≤ 1 := by
  induction fc with
  | nil => simp
  | cons r fc ih =>
    rw [List.map_cons, List.nodup_cons] at h
    rw [List.filter_cons]
    by_cases hr : r.uid = u ∧ r.ds = d
    · rw [decide_eq_true hr, if_pos rfl]
      have hnil : (fc.filter fun x => decide (x.uid = u ∧ x.ds = d)) = [] := by
        refine List.filter_eq_nil_iff.mpr ?_
        intro x hx hxk
        rw [decide_eq_true_eq] at hxk
        exact h.1 (List.mem_map.mpr
          ⟨x, hx, by rw [hxk.1, hxk.2, hr.1, hr.2]⟩)
      rw [hnil]
      simp
    · rw [decide_eq_false hr]
      have : (if (false = true) then
          r :: fc.filter (fun x => decide (x.uid = u ∧ x.ds = d))
          else fc.filter (fun x => decide (x.uid = u ∧ x.ds = d))) =
          fc.filter (fun x => decide (x.uid = u ∧ x.ds = d)) := by
        rw [if_neg]; simp
      rw [this]
      exact ih h.2

theorem mergeRow_length (fc : List FRow) (l : Row)
    (h : (fc.map fun r => (r.uid, r.ds)).Nodup) :
    (mergeRow fc l).length = 1 := by
  unfold mergeRow
  by_cases he : (fc.filter fun r => decide (r.uid = l.uid ∧ r.ds = l.ds)).isEmpty
  · rw [if_pos he]; rfl
  · rw [if_neg he, List.length_map]
    have hle := filter_key_length_le_one fc l.uid l.ds h
    have hne : (fc.filter fun r => decide (r.uid = l.uid ∧ r.ds = l.ds)) ≠ [] := by
      intro hnil; exact he (by rw [hnil]; rfl)
    have hpos : 0 < (fc.filter fun r => decide (r.uid = l.uid ∧ r.ds = l.ds)).length :=
      List.length_pos.mpr hne
    omega

/-- C9: a left merge on the key (series_id, timestamp) with key-unique
forecast rows keeps exactly the holdout rows: same row count, same keys and
actual values in the same order, and any holdout row with no matching
forecast row appears with a null prediction rather than being dropped. -/
theorem merge_left_join_invariant (hd : List Row) (fc : List FRow)
    (h : (fc.map fun r => (r.uid, r.ds)).Nodup) :
    (leftMerge hd fc).length = hd.length ∧
    (leftMerge hd fc).map (fun m => (m.uid, m.ds, m.y)) =
      hd.map (fun l => (l.uid, l.ds, l.y)) ∧
    ∀ l ∈ hd, (∀ r ∈ fc, ¬(r.uid = l.uid ∧ r.ds = l.ds)) →
      (⟨l.uid, l.ds, l.y, none⟩ : MRow) ∈ leftMerge hd fc := by
  refine ⟨?_, ?_, ?_⟩
  · induction hd with
    | nil => rfl
    | cons l hd ih =>
      rw [leftMerge, List.flatMap_cons, List.length_append]
      rw [leftMerge] at ih
      rw [ih, mergeRow_length fc l h, List.length_cons]
      omega
  · induction hd with
    | nil => rfl
    | cons l hd ih =>
      rw [leftMerge, List.flatMap_cons, List.map_append, List.map_cons]
      rw [leftMerge] at ih
      rw [ih]
      have h1 : (mergeRow fc l).length = 1 := mergeRow_length fc l h
      obtain ⟨m, hm⟩ := List.length_eq_one.mp h1
      rw [hm, List.map_singleton]
      have := mergeRow_fields fc l m (hm ▸ List.mem_singleton_self m)
      rw [this.1, this.2.1, this.2.2]
      rfl
  · intro l hl hnm
    have hnil : (fc.filter fun r => decide (r.uid = l.uid ∧ r.ds = l.ds)) = [] := by
      refine List.filter_eq_nil_iff.mpr ?_
      intro r hr hk
      exact hnm r hr (decide_eq_true_eq.mp hk)
    refine List.mem_flatMap.mpr ⟨l, hl, ?_⟩
    unfold mergeRow
    rw [hnil]
    simp

/-- Witness for C9 at a concrete holdout and forecast table, including a
holdout row with no matching forecast row. -/
theorem merge_left_join_invariant_witness :
    letI hd : List Row := [⟨"A", 1, 10⟩, ⟨"A", 2, 11⟩, ⟨"B", 1, 5⟩]
    letI fc : List FRow := [⟨"A", 1, 8⟩, ⟨"B", 1, 6⟩]
    (fc.map fun r => (r.uid, r.ds)).Nodup ∧
      ((leftMerge hd fc).length = hd.length ∧
        (leftMerge hd fc).map (fun m => (m.uid, m.ds, m.y)) =
          hd.map (fun l => (l.uid, l.ds, l.y)) ∧
        ∀ l ∈ hd, (∀ r ∈ fc, ¬(r.uid = l.uid ∧ r.ds = l.ds)) →
          (⟨l.uid, l.ds, l.y, none⟩ : MRow) ∈ leftMerge hd fc) :=
  ⟨by decide, merge_left_join_invariant _ _ (by decide)⟩

/-- C5 counterexample: a forecast row with no matching holdout row is dropped
by the left merge WITHOUT leaving any trace: the merge output with the
unmatched row `("B", 99)` present is identical to the output without it, so
nothing in the code counts or logs a coverage gap. -/
theorem merge_coverage_gap_counterexample :
    leftMerge [⟨"A", 1, 10⟩] [⟨"A", 1, 8⟩, ⟨"B", 99, 7⟩] =
      leftMerge [⟨"A", 1, 10⟩] [⟨"A", 1, 8⟩] ∧
    leftMerge [⟨"A", 1, 10⟩] [⟨"A", 1, 8⟩] = [⟨"A", 1, 10, some 8⟩] := by
  decide

/-- C5 amended: predictions are joined to the holdout on the key
(series_id, timestamp); a forecast row whose key matches no holdout row is
excluded from the evaluation table without raising an error, but silently —
the merge output is identical to one in which that row never existed, and no
coverage gap is logged or counted; a holdout row with no matching forecast
row is retained with a null prediction value. -/
theorem merge_unmatched_forecast_silently_dropped (hd : List Row)
    (fc : List FRow) (x : FRow)
    (hx : ∀ l ∈ hd, ¬(x.uid = l.uid ∧ x.ds = l.ds)) :
    leftMerge hd (x :: fc) = leftMerge hd fc ∧
    ∀ l ∈ hd, (l.uid, l.ds) ∉ fc.map (fun r => (r.uid, r.ds)) →
      (⟨l.uid, l.ds, l.y, none⟩ : MRow) ∈ leftMerge hd fc := by
  constructor
  · unfold leftMerge
    induction hd with
    | nil => rfl
    | cons l hd ih =>
      rw [List.flatMap_cons, List.flatMap_cons]
      have hmr : mergeRow (x :: fc) l = mergeRow fc l := by
        unfold mergeRow
        rw [List.filter_cons, decide_eq_false (hx l (List.mem_cons_self l hd))]
        simp
      rw [hmr, ih (fun a ha => hx a (List.mem_cons_of_mem l ha))]
  · intro l hl hnk
    have hnil : (fc.filter fun r => decide (r.uid = l.uid ∧ r.ds = l.ds)) = [] := by
      refine List.filter_eq_nil_iff.mpr ?_
      intro r hr hk
      rw [decide_eq_true_eq] at hk
      exact hnk (List.mem_map.mpr ⟨r, hr, by rw [hk.1, hk.2]⟩)
    refine List.mem_flatMap.mpr ⟨l, hl, ?_⟩
    unfold mergeRow
    rw [hnil]
    simp

/-- Witness for the amended C5 at a concrete table. -/
theorem merge_unmatched_forecast_silently_dropped_witness :
    letI hd : List Row := [⟨"A", 1, 10⟩, ⟨"A", 2, 11⟩]
    letI fc : List FRow := [⟨"A", 1, 8⟩]
    letI x : FRow := ⟨"B", 99, 7⟩
    (∀ l ∈ hd, ¬(x.uid = l.uid ∧ x.ds = l.ds)) ∧
      (leftMerge hd (x :: fc) = leftMerge hd fc ∧
        ∀ l ∈ hd, (l.uid, l.ds) ∉ fc.map (fun r => (r.uid, r.ds)) →
          (⟨l.uid, l.ds, l.y, none⟩ : MRow) ∈ leftMerge hd fc) :=
  ⟨by decide, merge_unmatched_forecast_silently_dropped _ _ _ (by decide)⟩

/-! ## Report aggregator

Notebook cells 23/37/49:
`evaluation.groupby("metric")[models].mean()`.

`evaluate` produces one row per (series_id, metric) with one column per
model holding that model's per-series error; a model with no forecast for
some series yields NaN there, modelled as `none`. Pandas `mean()` runs
with its default `skipna=True`: the arithmetic mean of the non-null
values of the column, and NaN (here `none`) when no value is present. -/

/-- The aggregate for one (metric, model) cell of the summary: the pandas
`mean()` (skipna) of that model's per-series error column, given as
(series_id, error-or-missing) records. -/
def summarizeModel (recs : List (String × Option ℚ)) : Option ℚ :=
  if ((recs.map Prod.snd).reduceOption) = [] then none
  else some (((recs.map Prod.snd).reduceOption).sum /
    ((recs.map Prod.snd).reduceOption).length)

/-- C7: the summary for a (metric, model) pair is the arithmetic mean of
that model's per-series error values, and a missing per-series value is
excluded from the mean (dropping it leaves the aggregate unchanged) rather
than being treated as zero. -/
theorem summarize_mean_excludes_missing :
    (∀ (sid : String) (recs : List (String × Option ℚ)),
      summarizeModel ((sid, none) :: recs) = summarizeModel recs) ∧
    (∀ (recs : List (String × Option ℚ)) (vs : List ℚ),
      recs.map Prod.snd = vs.map some → vs ≠ [] →
      summarizeModel recs = some (vs.sum / vs.length)) := by
  have hred : ∀ vs : List ℚ, (vs.map some).reduceOption = vs := by
    intro vs
    induction vs with
    | nil => rfl
    | cons v vs ih => simp [List.reduceOption_cons_of_some, ih]
  constructor
  · intro sid recs
    unfold summarizeModel
    rw [List.map_cons]
    rw [show ((sid, none) : String × Option ℚ).2 = none from rfl,
      List.reduceOption_cons_of_none]
  · intro recs vs hmap hne
    unfold summarizeModel
    rw [hmap, hred vs, if_neg hne]

/-- Witness for C7: a model column with values 2 and 4 and one missing entry
aggregates to 3, and dropping the missing entry leaves the aggregate
unchanged. -/
theorem summarize_mean_excludes_missing_witness :
    letI recs : List (String × Option ℚ) := [("A", some 2), ("B", some 4)]
    summarizeModel (("C", none) :: recs) = summarizeModel recs ∧
      (recs.map Prod.snd = [2, 4].map some ∧ ([2, 4] : List ℚ) ≠ [] ∧
        summarizeModel recs = some ((([2, 4] : List ℚ).sum) / 2)) :=
  ⟨summarize_mean_excludes_missing.1 "C" _,
    by decide, by decide,
    summarize_mean_excludes_missing.2 _ [2, 4] (by decide) (by decide)⟩

/-! ## Scale of the evaluation comparison

Notebook cell 13 builds the holdout `test_df` from `df_transformed`, whose
`y` column is `log(raw + 1)`; cells 17/33/45 inverse-transform every value
column of every forecast frame back to the raw scale; cells 23/37/49 then
run `evaluate` on the merged `test_df`, comparing the raw-scale predictions
against the still-log-scale `y` column. Real-valued rows are needed here
because the transform itself enters the comparison. -/

/-- A panel row with a real-valued target, for the transform pipeline. -/
structure RRow where
  uid : String
  ds : Nat
  y : ℝ

/-- Notebook cell 11: `df_transformed["y"] = np.log(df_transformed["y"] + 1)`
applied to every row. -/
noncomputable def transformTable (t : List RRow) : List RRow :=
  t.map fun r => { r with y := forwardT r.y }

/-- C3 evidence: the actual values entering the evaluation are the holdout
rows of the TRANSFORMED panel, i.e. `log(raw + 1)`, never inverse-transformed
back, while a perfect provider's prediction is returned to the raw scale: at
raw value 1 the code compares the prediction against `log 2 ≠ 1`, so a
perfect forecast receives the nonzero error `|log 2 - 1|`, whereas the
raw-scale comparison the specification describes yields error 0. -/
theorem evaluation_actuals_stay_log_scale (panel : List RRow) :
    ((splitSeries 28 (transformTable panel)).2).map (fun r => r.y) =
      ((splitSeries 28 panel).2).map (fun r => forwardT r.y) ∧
    forwardT 1 ≠ 1 ∧
    |forwardT 1 - inverseT (forwardT 1)| ≠ 0 ∧
    |(1 : ℝ) - inverseT (forwardT 1)| = 0 := by
  have hrt : inverseT (forwardT 1) = 1 := by
    unfold inverseT forwardT
    rw [Real.exp_log (by norm_num)]
    norm_num
  have hlog : forwardT 1 < 1 := by
    unfold forwardT
    norm_num
    rw [Real.log_lt_iff_lt_exp (by norm_num)]
    have := Real.exp_one_gt_d9
    linarith
  refine ⟨?_, ne_of_lt hlog, ?_, ?_⟩
  · unfold transformTable splitSeries
    rw [List.length_map, ← List.map_drop, List.map_map]
    rfl
  · rw [hrt]
    intro habs
    rw [abs_eq_zero, sub_eq_zero] at habs
    exact ne_of_lt hlog habs
  · rw [hrt]
    simp

/-! ## Exogenous predictions attached by position

Notebook cell 48: `test_df["TimeGPT_ex"] = fcst_df["TimeGPT_ex"].values`.
The prediction column of the exogenous run is written into the holdout
table by ROW POSITION (a bare numpy array assignment), with no key check
against (series_id, timestamp). -/

/-- Cell 48: positional column assignment — row i of the table receives
element i of the value array. -/
def attachPositional (test : List Row) (vals : List ℚ) : List (Row × ℚ) :=
  test.zip vals

/-- C6 evidence: with the exogenous forecast frame ordered differently from
the holdout table, the positional assignment silently attaches to the
holdout row ("A", 1) the prediction value 10 that the provider produced for
the key ("B", 1), while the prediction actually produced for ("A", 1) is 20;
no error is raised and no key is consulted. -/
theorem exog_positional_misalignment :
    attachPositional [⟨"A", 1, 1⟩, ⟨"B", 1, 2⟩]
        (([⟨"B", 1, 10⟩, ⟨"A", 1, 20⟩] : List FRow).map FRow.yhat) =
      [(⟨"A", 1, 1⟩, 10), (⟨"B", 1, 2⟩, 20)] ∧
    (∃ r ∈ ([⟨"B", 1, 10⟩, ⟨"A", 1, 20⟩] : List FRow),
      r.uid = "A" ∧ r.ds = 1 ∧ r.yhat = 20) := by
  decide

/-! ## The raw panel is read-only (heap model of the whole run)

The notebook mutates dataframes in place (`df_transformed["y"] = ...`,
`fcst_df[col] = ...`, `fcst_df.rename(..., inplace=True)`,
`test_df["TimeGPT_ex"] = ...`), so whether the raw panel `df` survives the
run depends on object identity: `df_transformed = df.copy()` allocates a
fresh object, while every later cell either allocates a fresh frame
(`tail`, `drop`, `pd.merge`, `evaluate`, provider calls) or writes through
a reference other than `df`'s. The run is modelled with an explicit heap
of dataframe objects and an environment of variable bindings; each cell
becomes an allocation or an in-place write at the bound reference. -/

/-- A dataframe row for the heap model: the key columns (unique_id, ds)
plus named real-valued value columns. -/
structure CRow where
  uid : String
  ds : Nat
  cols : List (String × ℝ)

/-- A dataframe object on the heap. -/
abbrev CTable := List CRow

/-- In-place single-column update `t[c] = f(t[c])` (cell 11). -/
def mapCol (c : String) (f : ℝ → ℝ) (t : CTable) : CTable :=
  t.map fun r =>
    { r with cols := r.cols.map fun kv => if kv.1 = c then (kv.1, f kv.2) else kv }

/-- The loop `for col in cols: t[col] = f(t[col])` over every value column
(cells 17, 33, 45; `cols` is every column except unique_id and ds). -/
def mapValueCols (f : ℝ → ℝ) (t : CTable) : CTable :=
  t.map fun r => { r with cols := r.cols.map fun kv => (kv.1, f kv.2) }

/-- The call `t.groupby("unique_id").tail(H)`: the rows among the last H of
their series, in original order (cell 13). -/
def tailPerGroup (H : Nat) (t : CTable) : CTable :=
  (t.enum.filter fun ir =>
    decide ((((t.drop ir.1).filter fun x => decide (x.uid = ir.2.uid)).length) ≤ H)).map
    Prod.snd

/-- The call `t.drop(test_df.index)`: the complementary rows (cell 13). -/
def dropTailPerGroup (H : Nat) (t : CTable) : CTable :=
  (t.enum.filter fun ir =>
    decide (H < (((t.drop ir.1).filter fun x => decide (x.uid = ir.2.uid)).length))).map
    Prod.snd

/-- The merge `pd.merge(l, r, "left", ["unique_id", "ds"])` on column-table form; an
unmatched left row keeps its own columns only (the right columns are NaN,
modelled by absence). -/
def leftMergeCols (l r : CTable) : CTable :=
  l.flatMap fun a =>
    if (r.filter fun b => decide (b.uid = a.uid ∧ b.ds = a.ds)).isEmpty then [a]
    else (r.filter fun b => decide (b.uid = a.uid ∧ b.ds = a.ds)).map
      fun b => { a with cols := a.cols ++ b.cols }

/-- The call `t.drop(cs, axis=1)` (cell 41). -/
def dropColumns (cs : List String) (t : CTable) : CTable :=
  t.map fun r => { r with cols := r.cols.filter fun kv => decide (¬ kv.1 ∈ cs) }

/-- The call `t.rename(columns={o: n}, inplace=True)` (cell 45). -/
def renameColumn (o n : String) (t : CTable) : CTable :=
  t.map fun r =>
    { r with cols := r.cols.map fun kv => if kv.1 = o then (n, kv.2) else kv }

/-- The expression `t[c].values`: the column as a bare array (0 where absent). -/
def columnValues (c : String) (t : CTable) : List ℝ :=
  t.map fun r => (r.cols.lookup c).getD 0

/-- Cell 48's positional assignment of a fresh column into a table. -/
def setColumnPositional (c : String) (vals : List ℝ) (t : CTable) : CTable :=
  List.zipWith (fun r v => { r with cols := r.cols ++ [(c, v)] }) t vals

/-- The notebook's variable environment after the run: the heap of
dataframe objects, and for each notebook variable the heap reference it is
bound to at the end. -/
structure NotebookState where
  heap : List CTable
  df : Nat
  df_transformed : Nat
  test_df : Nat
  input_df : Nat
  fcst_df : Nat
  sf_preds : Nat
  evaluation : Nat

/-- Cell 7: `df = pd.read_csv(...)` — the loaded panel is the first heap
object, bound to `df` (reference 0). -/
def cell07 (df0 : CTable) : List CTable := [df0]

/-- Cell 11: `df_transformed = df.copy()` allocates a fresh object
(reference 1); `df_transformed["y"] = np.log(df_transformed["y"] + 1)`
then writes in place through reference 1. -/
noncomputable def cell11 (h : List CTable) : List CTable :=
  let h1 := h ++ [h.getD 0 []]
  h1.set 1 (mapCol "y" forwardT (h1.getD 1 []))

/-- Cell 13: `test_df = df_transformed.groupby("unique_id").tail(28)`
(fresh object, reference 2) and `input_df = df_transformed.drop(test_df.index)`
(fresh object, reference 3). -/
def cell13 (h : List CTable) : List CTable :=
  let h3 := h ++ [tailPerGroup 28 (h.getD 1 [])]
  h3 ++ [dropTailPerGroup 28 (h3.getD 1 [])]

/-- Cell 15: `fcst_df = nixtla_client.forecast(df=input_df, h=28, ...)` —
the remote response is a fresh frame (reference 4). -/
def cell15 (fcst1 : CTable) (h : List CTable) : List CTable := h ++ [fcst1]

/-- Cell 17: `for col in cols: fcst_df[col] = np.exp(fcst_df[col]) - 1` —
in-place writes through reference 4. -/
noncomputable def cell17 (h : List CTable) : List CTable :=
  h.set 4 (mapValueCols inverseT (h.getD 4 []))

/-- Cell 22: `fcst_df["ds"] = pd.to_datetime(fcst_df["ds"])` (an in-place
write, the identity here since timestamps are already temporal), then
`test_df = pd.merge(test_df, fcst_df, "left", ["unique_id", "ds"])`
(fresh object, reference 5). -/
def cell22 (h : List CTable) : List CTable :=
  let h7 := h.set 4 (h.getD 4 [])
  h7 ++ [leftMergeCols (h7.getD 2 []) (h7.getD 4 [])]

/-- Cell 23: `evaluation = evaluate(test_df, ...)` (fresh, reference 6) and
`average_metrics = evaluation.groupby("metric")["TimeGPT"].mean()` (fresh,
reference 7). -/
def cell23 (evalFn aggFn : CTable → CTable) (h : List CTable) : List CTable :=
  let h9 := h ++ [evalFn (h.getD 5 [])]
  h9 ++ [aggFn (h9.getD 6 [])]

/-- Cell 30: `sf.fit(df=input_df); sf_preds = sf.predict(h=28)` — the local
statistical predictions are a fresh frame (reference 8). -/
def cell30 (sfp : CTable) (h : List CTable) : List CTable := h ++ [sfp]

/-- Cell 33: `for col in cols: sf_preds[col] = np.exp(sf_preds[col]) - 1` —
in-place writes through reference 8. -/
noncomputable def cell33 (h : List CTable) : List CTable :=
  h.set 8 (mapValueCols inverseT (h.getD 8 []))

/-- Cell 36: `test_df = pd.merge(test_df, sf_preds, "left", ["unique_id", "ds"])`
(fresh object, reference 9). -/
def cell36 (h : List CTable) : List CTable :=
  h ++ [leftMergeCols (h.getD 5 []) (h.getD 8 [])]

/-- Cell 37: `evaluation = evaluate(test_df, ...)` (reference 10) and the
grouped mean (reference 11), both fresh frames. -/
def cell37 (evalFn aggFn : CTable → CTable) (h : List CTable) : List CTable :=
  let h14 := h ++ [evalFn (h.getD 9 [])]
  h14 ++ [aggFn (h14.getD 10 [])]

/-- Cell 41: `futr_exog_df = test_df.drop([...model and target columns...],
axis=1)` — a fresh frame (reference 12). -/
def cell41 (h : List CTable) : List CTable :=
  h ++ [dropColumns ["TimeGPT", "CrostonClassic", "CrostonOptimized",
    "IMAPA", "TSB", "y", "TimeGPT-lo-80", "TimeGPT-hi-80", "sell_price"] (h.getD 9 [])]

/-- Cell 43: `fcst_df = nixtla_client.forecast(df=input_df, X_df=futr_exog_df, ...)`
— the remote response is a fresh frame (reference 13). -/
def cell43 (fcst2 : CTable) (h : List CTable) : List CTable := h ++ [fcst2]

/-- Cell 45: `fcst_df.rename(columns={"TimeGPT": "TimeGPT_ex"}, inplace=True)`
then `for col in cols: fcst_df[col] = np.exp(fcst_df[col]) - 1`, both
in-place writes through reference 13. -/
noncomputable def cell45 (h : List CTable) : List CTable :=
  let h18 := h.set 13 (renameColumn "TimeGPT" "TimeGPT_ex" (h.getD 13 []))
  h18.set 13 (mapValueCols inverseT (h18.getD 13 []))

/-- Cell 48: `test_df["TimeGPT_ex"] = fcst_df["TimeGPT_ex"].values` — an
in-place positional write through reference 9. -/
def cell48 (h : List CTable) : List CTable :=
  h.set 9 (setColumnPositional "TimeGPT_ex"
    (columnValues "TimeGPT_ex" (h.getD 13 [])) (h.getD 9 []))

/-- Cell 49: the final `evaluation = evaluate(test_df, ...)` (reference 14)
and grouped mean (reference 15), both fresh frames. -/
def cell49 (evalFn aggFn : CTable → CTable) (h : List CTable) : List CTable :=
  let h21 := h ++ [evalFn (h.getD 9 [])]
  h21 ++ [aggFn (h21.getD 14 [])]

/-- The full notebook run, cell by cell. External calls that return fresh
frames are parameters: `fcst1` and `fcst2` are the two remote forecast
responses (cells 15 and 43), `sfp` the statsforecast predictions (cell 30),
`evalFn`/`aggFn` the library calls `evaluate(...)` and
`.groupby("metric")[...].mean()` (cells 23, 37, 49), each of which returns
a new frame and mutates nothing. -/
noncomputable def runNotebook (df0 fcst1 sfp fcst2 : CTable)
    (evalFn aggFn : CTable → CTable) : NotebookState :=
  { heap := cell49 evalFn aggFn (cell48 (cell45 (cell43 fcst2 (cell41
      (cell37 evalFn aggFn (cell36 (cell33 (cell30 sfp (cell23 evalFn aggFn
      (cell22 (cell17 (cell15 fcst1 (cell13 (cell11 (cell07 df0))))))))))))))),
    df := 0, df_transformed := 1, test_df := 9, input_df := 3,
    fcst_df := 13, sf_preds := 8, evaluation := 14 }

theorem getD_zero_append (h : List CTable) (t : CTable) (hh : h ≠ []) :
    (h ++ [t]).getD 0 [] = h.getD 0 [] := by
  cases h with
  | nil => exact absurd rfl hh
  | cons a l => rfl

theorem getD_zero_set (h : List CTable) (n : Nat) (t : CTable) (hn : n ≠ 0) :
    (h.set n t).getD 0 [] = h.getD 0 [] := by
  cases h with
  | nil => simp
  | cons a l =>
    cases n with
    | zero => exact absurd rfl hn
    | succ m => rfl

theorem append_single_ne_nil (h : List CTable) (t : CTable) : h ++ [t] ≠ [] := by
  simp

theorem set_ne_nil (h : List CTable) (n : Nat) (t : CTable) (hh : h ≠ []) :
    h.set n t ≠ [] := by
  cases h with
  | nil => exact absurd rfl hh
  | cons a l => cases n <;> simp

/-- A notebook cell touches the object at reference 0 in neither of the two
ways cells act on the heap (fresh allocation, or an in-place write through a
nonzero reference). -/
def KeepsHead (f : List CTable → List CTable) : Prop :=
  ∀ h : List CTable, h ≠ [] → f h ≠ [] ∧ (f h).getD 0 [] = h.getD 0 []

theorem cell11_keeps : KeepsHead cell11 := by
  intro h hh
  simp only [cell11]
  refine ⟨set_ne_nil _ _ _ (append_single_ne_nil h _), ?_⟩
  rw [getD_zero_set _ _ _ (by decide), getD_zero_append h _ hh]

theorem cell13_keeps : KeepsHead cell13 := by
  intro h hh
  simp only [cell13]
  refine ⟨append_single_ne_nil _ _, ?_⟩
  rw [getD_zero_append _ _ (append_single_ne_nil h _), getD_zero_append h _ hh]

theorem cell15_keeps (fcst1 : CTable) : KeepsHead (cell15 fcst1) := by
  intro h hh
  exact ⟨append_single_ne_nil h _, getD_zero_append h _ hh⟩

theorem cell17_keeps : KeepsHead cell17 := by
  intro h hh
  exact ⟨set_ne_nil _ _ _ hh, getD_zero_set _ _ _ (by decide)⟩

theorem cell22_keeps : KeepsHead cell22 := by
  intro h hh
  simp only [cell22]
  refine ⟨append_single_ne_nil _ _, ?_⟩
  rw [getD_zero_append _ _ (set_ne_nil _ _ _ hh), getD_zero_set _ _ _ (by decide)]

theorem cell23_keeps (evalFn aggFn : CTable → CTable) :
    KeepsHead (cell23 evalFn aggFn) := by
  intro h hh
  simp only [cell23]
  refine ⟨append_single_ne_nil _ _, ?_⟩
  rw [getD_zero_append _ _ (append_single_ne_nil h _), getD_zero_append h _ hh]

theorem cell30_keeps (sfp : CTable) : KeepsHead (cell30 sfp) := by
  intro h hh
  exact ⟨append_single_ne_nil h _, getD_zero_append h _ hh⟩

theorem cell33_keeps : KeepsHead cell33 := by
  intro h hh
  exact ⟨set_ne_nil _ _ _ hh, getD_zero_set _ _ _ (by decide)⟩

theorem cell36_keeps : KeepsHead cell36 := by
  intro h hh
  exact ⟨append_single_ne_nil h _, getD_zero_append h _ hh⟩

theorem cell37_keeps (evalFn aggFn : CTable → CTable) :
    KeepsHead (cell37 evalFn aggFn) := by
  intro h hh
  simp only [cell37]
  refine ⟨append_single_ne_nil _ _, ?_⟩
  rw [getD_zero_append _ _ (append_single_ne_nil h _), getD_zero_append h _ hh]

theorem cell41_keeps : KeepsHead cell41 := by
  intro h hh
  exact ⟨append_single_ne_nil h _, getD_zero_append h _ hh⟩

theorem cell43_keeps (fcst2 : CTable) : KeepsHead (cell43 fcst2) := by
  intro h hh
  exact ⟨append_single_ne_nil h _, getD_zero_append h _ hh⟩

theorem cell45_keeps : KeepsHead cell45 := by
  intro h hh
  simp only [cell45]
  refine ⟨set_ne_nil _ _ _ (set_ne_nil _ _ _ hh), ?_⟩
  rw [getD_zero_set _ _ _ (by decide), getD_zero_set _ _ _ (by decide)]

theorem cell48_keeps : KeepsHead cell48 := by
  intro h hh
  exact ⟨set_ne_nil _ _ _ hh, getD_zero_set _ _ _ (by decide)⟩

theorem cell49_keeps (evalFn aggFn : CTable → CTable) :
    KeepsHead (cell49 evalFn aggFn) := by
  intro h hh
  simp only [cell49]
  refine ⟨append_single_ne_nil _ _, ?_⟩
  rw [getD_zero_append _ _ (append_single_ne_nil h _), getD_zero_append h _ hh]

/-- C8: the raw input panel is read-only — after the whole notebook run
(transform, split, both forecast rounds, inverse transforms, merges,
positional assignment, evaluations), the object bound to `df` is unchanged:
the forward transform operated on the copy at reference 1, and every later
cell either allocated a fresh object or wrote through a nonzero reference. -/
theorem panel_read_only (df0 fcst1 sfp fcst2 : CTable)
    (evalFn aggFn : CTable → CTable) :
    (runNotebook df0 fcst1 sfp fcst2 evalFn aggFn).df = 0 ∧
    (runNotebook df0 fcst1 sfp fcst2 evalFn aggFn).heap.getD 0 [] = df0 := by
  refine ⟨rfl, ?_⟩
  show (cell49 evalFn aggFn (cell48 (cell45 (cell43 fcst2 (cell41
      (cell37 evalFn aggFn (cell36 (cell33 (cell30 sfp (cell23 evalFn aggFn
      (cell22 (cell17 (cell15 fcst1 (cell13 (cell11
      (cell07 df0)))))))))))))))).getD 0 [] = df0
  have s07 : cell07 df0 ≠ [] ∧ (cell07 df0).getD 0 [] = df0 :=
    ⟨by simp [cell07], rfl⟩
  have s11 := cell11_keeps _ s07.1
  have s13 := cell13_keeps _ s11.1
  have s15 := cell15_keeps fcst1 _ s13.1
  have s17 := cell17_keeps _ s15.1
  have s22 := cell22_keeps _ s17.1
  have s23 := cell23_keeps evalFn aggFn _ s22.1
  have s30 := cell30_keeps sfp _ s23.1
  have s33 := cell33_keeps _ s30.1
  have s36 := cell36_keeps _ s33.1
  have s37 := cell37_keeps evalFn aggFn _ s36.1
  have s41 := cell41_keeps _ s37.1
  have s43 := cell43_keeps fcst2 _ s41.1
  have s45 := cell45_keeps _ s43.1
  have s48 := cell48_keeps _ s45.1
  have s49 := cell49_keeps evalFn aggFn _ s48.1
  rw [s49.2, s48.2, s45.2, s43.2, s41.2, s37.2, s36.2, s33.2, s30.2, s23.2,
    s22.2, s17.2, s15.2, s13.2, s11.2, s07.2]

end DemandForecast
